import Mathlib

/-!
Verification development for the District-Map-Gen-Utility repository
(`src/map_app.py` and `src/map_app_v1.py`).

The classification pipeline of the two Streamlit applications is embedded
shallowly:

* Metric values (pandas float columns) are modelled as exact fractions
  `Frac` (an integer numerator over a positive integer denominator, kept
  unnormalised so every operation is kernel-computable).  A nullable cell
  (`NaN`) is `Option Frac` with `none` for null.
* Bin edges of the predefined schemes may be `-np.inf` / `np.inf`; they are
  modelled by `XVal` (a fraction extended with two infinities).
* `pd.cut` as invoked by both apps (`bins=sorted(...)`, explicit `labels`,
  `right=True`, `include_lowest=False`, `duplicates="drop"`, `ordered=False`)
  is modelled by `pdCut`: edges are de-duplicated, then the label count is
  checked against the edge count (pandas raises `ValueError` on mismatch,
  modelled as `Except.error`), then each non-null value `v` is assigned the
  label of the first interval `(edge i, edge (i+1)]` containing it.
* `pd.qcut` with `duplicates="raise"` as used by `get_valid_bins` is
  modelled by `qcutAttempt`: quantile edges with numpy linear interpolation,
  a `ValueError` (attempt failure) when the edges are not pairwise distinct
  as values, or when the synthesized labels are not pairwise distinct
  (the second `qcut` call passes an explicit label list with the default
  `ordered=True`, which requires unique labels).  Bucket labels are
  `"{int(lo)}-{int(hi)}"` where Python `int` truncates toward zero.
* `sns.color_palette("RdYlGn", n)` is modelled by its colormap sample
  positions: seaborn samples the `RdYlGn` colormap at the `n` interior
  points of `linspace(0, 1, n + 2)`, i.e. position `(i+1)/(n+1)` for the
  `i`-th colour; position `0` is the red end and position `1` the green end,
  so larger positions are greener.
-/

/-- An exact fraction: integer numerator over an integer denominator.
Operations keep fractions unnormalised (no gcd), so the kernel can evaluate
them; every fraction built by the development has a positive denominator. -/
structure Frac where
  num : Int
  den : Int
deriving DecidableEq, Repr

/-- The fraction `n / 1`. -/
def Frac.ofInt (n : Int) : Frac := ⟨n, 1⟩

/-- Value ordering of fractions (cross multiplication; faithful for
positive denominators). -/
def Frac.le (a b : Frac) : Prop := a.num * b.den ≤ b.num * a.den

/-- Strict value ordering of fractions. -/
def Frac.lt (a b : Frac) : Prop := a.num * b.den < b.num * a.den

instance (a b : Frac) : Decidable (Frac.le a b) :=
  inferInstanceAs (Decidable (a.num * b.den ≤ b.num * a.den))

instance (a b : Frac) : Decidable (Frac.lt a b) :=
  inferInstanceAs (Decidable (a.num * b.den < b.num * a.den))

/-- Value equality of fractions (cross multiplication), the equality used by
`np.unique` when pandas checks quantile bin edges for duplicates. -/
def Frac.beq (a b : Frac) : Bool := a.num * b.den == b.num * a.den

/-- Addition of fractions (unnormalised). -/
def Frac.add (a b : Frac) : Frac := ⟨a.num * b.den + b.num * a.den, a.den * b.den⟩

/-- Subtraction of fractions (unnormalised). -/
def Frac.sub (a b : Frac) : Frac := ⟨a.num * b.den - b.num * a.den, a.den * b.den⟩

/-- Multiplication of fractions (unnormalised). -/
def Frac.mul (a b : Frac) : Frac := ⟨a.num * b.num, a.den * b.den⟩

/-- Python `int(x)`: truncation toward zero (`Int.tdiv` is T-division). -/
def Frac.trunc (a : Frac) : Int := Int.tdiv a.num a.den

/-- Floor of a fraction with positive denominator (`Int.fdiv` is floor
division), as used by numpy's linear quantile interpolation. -/
def Frac.floor (a : Frac) : Int := Int.fdiv a.num a.den

/-- Interpretation of a fraction as a rational number, used only for
order-theoretic reasoning (never evaluated by the kernel). -/
def Frac.toRat (a : Frac) : ℚ := (a.num : ℚ) / (a.den : ℚ)

/-- A bin edge of a predefined scheme: a finite value or `±np.inf`. -/
inductive XVal where
  | negInf : XVal
  | fin : Frac → XVal
  | posInf : XVal
deriving DecidableEq, Repr

/-- Float ordering `a <= b` extended to `±np.inf`. -/
def XVal.le : XVal → XVal → Prop
  | .negInf, _ => True
  | .fin _, .negInf => False
  | .fin a, .fin b => Frac.le a b
  | .fin _, .posInf => True
  | .posInf, .posInf => True
  | .posInf, _ => False

/-- Float ordering `a < b` extended to `±np.inf`. -/
def XVal.lt : XVal → XVal → Prop
  | _, .negInf => False
  | .negInf, _ => True
  | .fin a, .fin b => Frac.lt a b
  | .fin _, .posInf => True
  | .posInf, _ => False

instance : ∀ a b : XVal, Decidable (XVal.le a b)
  | .negInf, _ => isTrue trivial
  | .fin _, .negInf => isFalse id
  | .fin a, .fin b => inferInstanceAs (Decidable (Frac.le a b))
  | .fin _, .posInf => isTrue trivial
  | .posInf, .negInf => isFalse id
  | .posInf, .fin _ => isFalse id
  | .posInf, .posInf => isTrue trivial

instance : ∀ a b : XVal, Decidable (XVal.lt a b)
  | .negInf, .negInf => isFalse id
  | .negInf, .fin _ => isTrue trivial
  | .negInf, .posInf => isTrue trivial
  | .fin _, .negInf => isFalse id
  | .fin a, .fin b => inferInstanceAs (Decidable (Frac.lt a b))
  | .fin _, .posInf => isTrue trivial
  | .posInf, .negInf => isFalse id
  | .posInf, .fin _ => isFalse id
  | .posInf, .posInf => isFalse id

/-- The denominator-positivity invariant of a bin edge (`True` at `±inf`). -/
def XVal.posDen : XVal → Prop
  | .negInf => True
  | .fin a => 0 < a.den
  | .posInf => True

instance : ∀ a : XVal, Decidable (XVal.posDen a)
  | .negInf => isTrue trivial
  | .fin a => inferInstanceAs (Decidable (0 < a.den))
  | .posInf => isTrue trivial

/-- Insert a value into a sorted list of bin edges. -/
def insertX (a : XVal) : List XVal → List XVal
  | [] => [a]
  | b :: bs => if XVal.le a b then a :: b :: bs else b :: insertX a bs

/-- Python `sorted` on a list of bin edges (modelled as insertion sort,
which agrees with it on any list of comparable values). -/
def sortX : List XVal → List XVal
  | [] => []
  | a :: as => insertX a (sortX as)

/-- Drop adjacent identical edges, as `np.unique` does on an already sorted
edge list (the `duplicates="drop"` behaviour inside `pd.cut`). -/
def dedupAdj : List XVal → List XVal
  | [] => []
  | [a] => [a]
  | a :: b :: rest => if a = b then dedupAdj (b :: rest) else a :: dedupAdj (b :: rest)

/-- Boolean strict-chain check: the list is strictly increasing. -/
def chainLtX : List XVal → Bool
  | [] => true
  | [_] => true
  | a :: b :: rest => if XVal.lt a b then chainLtX (b :: rest) else false

/-- Assign a finite value to the first interval `(edge i, edge (i+1)]` of a
sorted edge list, returning that interval's label (`pd.cut` with
`right=True`, `include_lowest=False`; out of range gives no bucket). -/
def cutAssign : List XVal → List String → Frac → Option String
  | b0 :: b1 :: bs, l :: ls, v =>
      if XVal.lt b0 (XVal.fin v) ∧ XVal.le (XVal.fin v) b1 then some l
      else cutAssign (b1 :: bs) ls v
  | _, _, _ => none

/-- Classification of one nullable cell: null rows receive no bucket. -/
def pdCutRow (bins : List XVal) (labels : List String) (v : Option Frac) : Option String :=
  v.bind (cutAssign bins labels)

/-- `pd.cut(column, bins, labels, duplicates="drop", ordered=False)` on an
already sorted edge list: adjacent duplicate edges are dropped, then pandas
raises `ValueError` when the explicit label list no longer has exactly one
label fewer than the edges; otherwise each row is classified. -/
def pdCut (bins : List XVal) (labels : List String) (col : List (Option Frac)) :
    Except String (List (Option String)) :=
  let b := dedupAdj bins
  if labels.length + 1 ≠ b.length then
    Except.error "Bin labels must be one fewer than the number of bin edges"
  else
    Except.ok (col.map (pdCutRow b labels))

instance {ε α : Type} [DecidableEq ε] [DecidableEq α] : DecidableEq (Except ε α)
  | .error a, .error b =>
      if h : a = b then isTrue (by rw [h]) else isFalse (by intro hc; cases hc; exact h rfl)
  | .error _, .ok _ => isFalse (by intro hc; cases hc)
  | .ok _, .error _ => isFalse (by intro hc; cases hc)
  | .ok a, .ok b =>
      if h : a = b then isTrue (by rw [h]) else isFalse (by intro hc; cases hc; exact h rfl)

/-- A predefined classification scheme: cut points paired with labels. -/
abbrev Scheme := List XVal × List String

/-- The scheme-table invariant stated by the specification: one more cut
point than labels, and strictly increasing cut points after
de-duplication. -/
def schemeOk (s : Scheme) : Prop :=
  s.1.length = s.2.length + 1 ∧ chainLtX (dedupAdj s.1) = true

instance (s : Scheme) : Decidable (schemeOk s) :=
  inferInstanceAs (Decidable (_ ∧ _))

/-- Shorthand for an integer-valued bin edge. -/
def xf (n : Int) : XVal := XVal.fin ⟨n, 1⟩

/-- Shorthand for a fractional bin edge `n / d`. -/
def xfr (n d : Int) : XVal := XVal.fin ⟨n, d⟩

namespace MapApp

/-- District-level predefined bin table of `src/map_app.py` (lines 162-196). -/
def predefined_metric_bins_district_level : List (String × Scheme) :=
  [ ("TRANSACTING_SMAs",
      ([xf 0, xf 100, xf 500, xf 800, xf 1200, xf 2000, XVal.posInf],
       ["0-50", "50-100", "100-250", "250-500", "500-1000", ">1000"])),
    ("SM_AEPS_MARKET_SHARE",
      ([xf 0, xfr 1 10, xfr 14 100, xfr 17 100, xfr 19 100, xfr 21 100, XVal.posInf],
       ["0-0.1", "0.1-0.14", "0.14-0.17", "0.17-0.19", "0.19-0.21", ">0.21"])),
    ("CHANGE_IN_AEPS_MARKET_SHARE",
      ([XVal.negInf, xf (-3), xf (-2), xf (-1), xf 0, xf 1, xf 2, xf 3, xf 4, xf 5,
        XVal.posInf],
       ["<-3", "-3 to -2", "-2 to -1", "-1 to 0", "0 to 1", "1 to 2", "2 to 3",
        "3 to 4", "4 to 5", ">5"])),
    ("BL_DL_COUNT",
      ([XVal.negInf, xf 0, xf 1, xf 2, xf 3, xf 4, XVal.posInf],
       ["0", "1", "2", "3", "4", ">4"])),
    ("ACTIVE_PARTNERS",
      ([XVal.negInf, xf 0, xf 1, xf 2, xf 3, xf 4, XVal.posInf],
       ["0", "1", "2", "3", "4", ">4"])) ]

/-- State-level predefined bin table of `src/map_app.py` (lines 199-236). -/
def predefined_metric_bins_state_level : List (String × Scheme) :=
  [ ("TRANSACTING_SMAs",
      ([xf 0, xf 2000, xf 5000, xf 10000, xf 20000, xf 30000, xf 40000, xf 50000,
        XVal.posInf],
       ["0-2000", "2000-5000", "5000-10000", "10000-20000", "20000-30000",
        "30000-40000", "40000-50000", ">50000"])),
    ("SM_AEPS_MARKET_SHARE",
      ([xf 0, xfr 1 10, xfr 14 100, xfr 17 100, xfr 19 100, xfr 21 100, XVal.posInf],
       ["0-0.1", "0.1-0.14", "0.14-0.17", "0.17-0.19", "0.19-0.21", ">0.21"])),
    ("SP_USAGE_CHURN_non_CMS",
      ([xf 0, xf 50, xf 100, xf 200, xf 300, XVal.posInf],
       ["0-50", "50-100", "100-200", "200-300", ">300"])),
    ("CHANGE_IN_AEPS_MARKET_SHARE",
      ([XVal.negInf, xf (-3), xf (-2), xf (-1), xf 0, xf 1, xf 2, xf 3, xf 4, xf 5,
        XVal.posInf],
       ["<-3", "-3 to -2", "-2 to -1", "-1 to 0", "0 to 1", "1 to 2", "2 to 3",
        "3 to 4", "4 to 5", ">5"])) ]

/-- Suggested artifact file name of `src/map_app.py` (`generate_folium_map`):
the function first resets `geography` to `"National"` when the boundary is
`"state_level"` and the geography is `"State"` (lines 391-394), then builds
the name from the template (lines 929-932). -/
def file_name (geography boundary metric month_year state : String) : String :=
  let g := if boundary = "state_level" ∧ geography = "State" then "National" else geography
  if g = "State" then
    "MAP_State_" ++ state ++ "_" ++ boundary ++ "_" ++ metric ++ "_" ++ month_year ++ ".html"
  else
    "MAP_National_" ++ boundary ++ "_" ++ metric ++ "_" ++ month_year ++ ".html"

end MapApp

namespace MapAppV1

/-- District-level predefined bin table of `src/map_app_v1.py` (lines 558-586). -/
def predefined_metric_bins_district_level : List (String × Scheme) :=
  [ ("TRANSACTING_SMAs",
      ([xf 0, xf 50, xf 100, xf 250, xf 500, xf 1000, XVal.posInf],
       ["0-50", "50-100", "100-250", "250-500", "500-1000", ">1000"])),
    ("SM_AEPS_MARKET_SHARE",
      ([xf 0, xfr 1 10, xfr 14 100, xfr 17 100, xfr 19 100, xfr 21 100, XVal.posInf],
       ["0-0.1", "0.1-0.14", "0.14-0.17", "0.17-0.19", "0.19-0.21", ">0.21"])),
    ("SP_USAGE_CHURN_non_CMS",
      ([xf 0, xf 1, xf 2, xf 3, xf 4, XVal.posInf],
       ["0-1", "1-2", "2-3", "3-4", ">4"])),
    ("CHANGE_IN_AEPS_MARKET_SHARE",
      ([XVal.negInf, xf (-3), xf (-2), xf (-1), xf 0, xf 1, xf 2, xf 3, xf 5,
        XVal.posInf],
       ["<-3", "-3 to -2", "-2 to -1", "-1 to 0", "0 to 1", "1 to 2", "2 to 3",
        "3 to 4", "4 to 5", ">5"])),
    ("BL_DL_COUNT",
      ([xf 0, xf 1, xf 2, xf 3, xf 4, XVal.posInf],
       ["0", "1", "2", "3", "4", ">4"])),
    ("ACTIVE_PARTNERS",
      ([xf 0, xf 1, xf 2, xf 3, xf 4, XVal.posInf],
       ["0", "1", "2", "3", "4", ">4"])) ]

/-- State-level predefined bin table of `src/map_app_v1.py` (lines 588-615). -/
def predefined_metric_bins_state_level : List (String × Scheme) :=
  [ ("TRANSACTING_SMAs",
      ([xf 0, xf 2000, xf 5000, xf 10000, xf 20000, xf 30000, xf 40000, xf 50000,
        XVal.posInf],
       ["0-2000", "2000-5000", "5000-10000", "10000-20000", "20000-30000",
        "30000-40000", "40000-50000", ">50000"])),
    ("SM_AEPS_MARKET_SHARE",
      ([xf 0, xfr 1 10, xfr 14 100, xfr 17 100, xfr 19 100, xfr 21 100, XVal.posInf],
       ["0-0.1", "0.1-0.14", "0.14-0.17", "0.17-0.19", "0.19-0.21", ">0.21"])),
    ("SP_USAGE_CHURN_non_CMS",
      ([xf 0, xf 50, xf 100, xf 200, xf 300, XVal.posInf],
       ["0-50", "50-100", "100-200", "200-300", ">300"])),
    ("CHANGE_IN_AEPS_MARKET_SHARE",
      ([XVal.negInf, xf (-3), xf (-2), xf (-1), xf 0, xf 1, xf 2, xf 3, xf 5,
        XVal.posInf],
       ["<-3", "-3 to -2", "-2 to -1", "-1 to 0", "0 to 1", "1 to 2", "2 to 3",
        "3 to 4", "4 to 5", ">5"])),
    ("BL_DL_COUNT",
      ([xf 0, xf 1, xf 2, xf 3, xf 4, XVal.posInf],
       ["0", "1", "2", "3", "4", ">4"])),
    ("ACTIVE_PARTNERS",
      ([xf 0, xf 1, xf 2, xf 3, xf 4, XVal.posInf],
       ["0", "1", "2", "3", "4", ">4"])) ]

/-- Suggested artifact file name of `src/map_app_v1.py` (`generate_folium_map`,
lines 879-883); this variant has no geography reset. -/
def file_name (geography boundary metric month_year state : String) : String :=
  if geography = "State" then
    "MAP_State_" ++ state ++ "_" ++ boundary ++ "_" ++ metric ++ "_" ++ month_year ++ ".html"
  else
    "MAP_National_" ++ boundary ++ "_" ++ metric ++ "_" ++ month_year ++ ".html"

end MapAppV1

/-- Insert a value into a sorted list of fractions. -/
def insertF (a : Frac) : List Frac → List Frac
  | [] => [a]
  | b :: bs => if Frac.le a b then a :: b :: bs else b :: insertF a bs

/-- Sorting of the observed metric values, as done inside pandas quantile
computation (modelled as insertion sort). -/
def sortF : List Frac → List Frac
  | [] => []
  | a :: as => insertF a (sortF as)

/-- The empirical quantile of an ascending value list at probability `p`
with numpy's default linear interpolation: for `h = p * (n - 1)`,
`i = floor h` and `g = h - i`, the quantile is `x i + g * (x (i+1) - x i)`. -/
def quantile (xs : List Frac) (p : Frac) : Frac :=
  let n := xs.length
  let h := p.mul (Frac.ofInt (n - 1 : Int))
  let i := h.floor.toNat
  let g := h.sub (Frac.ofInt h.floor)
  match xs.get? i, xs.get? (i + 1) with
  | some a, some b => a.add (g.mul (b.sub a))
  | some a, none => a
  | none, _ => Frac.ofInt 0

/-- Boolean pairwise value-distinctness, the `np.unique`-length check pandas
performs for `duplicates="raise"`. -/
def distinctF : List Frac → Bool
  | [] => true
  | a :: rest => (rest.all fun b => !(Frac.beq a b)) && distinctF rest

/-- The `q + 1` quantile bin edges `pd.qcut` computes for a column: the
quantiles of the non-null values at probabilities `j / q`, `j = 0 .. q`. -/
def qEdges (col : List (Option Frac)) (q : ℕ) : List Frac :=
  let xs := sortF (col.filterMap id)
  (List.range (q + 1)).map (fun j : ℕ => quantile xs ⟨(j : Int), (q : Int)⟩)

/-- The label `f"{int(lo)}-{int(hi)}"` of one dynamic bucket. -/
def mkLabel (lo hi : Frac) : String :=
  toString lo.trunc ++ "-" ++ toString hi.trunc

/-- The labels `get_valid_bins` synthesizes from consecutive bin edges. -/
def qLabels (edges : List Frac) : List String :=
  (edges.zip edges.tail).map fun p => mkLabel p.1 p.2

/-- Bucket assignment of `pd.qcut` (equivalently `pd.cut` with
`include_lowest=True`): a value equal to the lowest edge joins the first
bucket, otherwise the first interval `(edge i, edge (i+1)]` applies. -/
def qcutAssignGo : List Frac → List String → Frac → Option String
  | b0 :: b1 :: bs, l :: ls, v =>
      if Frac.lt b0 v ∧ Frac.le v b1 then some l
      else qcutAssignGo (b1 :: bs) ls v
  | _, _, _ => none

/-- Bucket assignment of `pd.qcut`, including the lowest edge (pandas
compares the float values, hence `Frac.beq`). -/
def qcutAssign (edges : List Frac) (labels : List String) (v : Frac) : Option String :=
  match edges, labels with
  | e0 :: _, l0 :: _ => if Frac.beq v e0 then some l0 else qcutAssignGo edges labels v
  | _, _ => none

/-- One quantile-binning attempt of `get_valid_bins` at quantile count `q`.
`none` models a caught `ValueError`: duplicate bin edges
(`duplicates="raise"` in the first `qcut` call), duplicate synthesized
labels (the second `qcut` call passes the explicit label list with the
default `ordered=True`, which requires unique labels), or a column with no
numeric values (every edge is `NaN` and Python's `int(nan)` raises). -/
def qcutAttempt (col : List (Option Frac)) (q : ℕ) :
    Option (List (Option String) × List String) :=
  let edges := qEdges col q
  let labels := qLabels edges
  if col.filterMap id = [] then none
  else if distinctF edges then
    if labels.Nodup then
      some (col.map fun v => v.bind (qcutAssign edges labels), labels)
    else none
  else none

/-- Sample position of the `i`-th of `n` colours of
`sns.color_palette("RdYlGn", n)` in colormap coordinates: seaborn samples
the interior points of `linspace(0, 1, n + 2)`.  Position `0` is the red
end of the `RdYlGn` colormap and position `1` the green end. -/
def paletteSample (n i : ℕ) : Frac := ⟨(i : Int) + 1, (n : Int) + 1⟩

/-- The dynamic colour map: the `i`-th label (in bucket order) is paired
with the `i`-th palette colour. -/
def mkColorMap (labels : List String) : List (String × Frac) :=
  labels.enum.map fun p => (p.2, paletteSample labels.length p.1)

/-- The metric column of the row table handed to the dynamic binner,
together with its `Buckets` column when one has been written.  `buckets =
none` models a dataframe that has no `Buckets` column, i.e. every row is
unclassified. -/
structure Table where
  values : List (Option Frac)
  buckets : Option (List (Option String))
deriving DecidableEq, Repr

/-- The attempt loop of `get_valid_bins` over the remaining quantile
counts: the first successful attempt writes the `Buckets` column into the
dataframe **in place** and returns it with the colour map; if every attempt
fails the dataframe is returned unmodified with an empty colour map (the
function reports the failure on the console and does not raise). -/
def getValidBinsGo (t : Table) : List ℕ → Table × List (String × Frac)
  | [] => (t, [])
  | q :: qs =>
      match qcutAttempt t.values q with
      | some r => ({ t with buckets := some r.1 }, mkColorMap r.2)
      | none => getValidBinsGo t qs

/-- The default quantile counts tried by `get_valid_bins`. -/
def bin_options : List ℕ := [10, 5, 4, 3, 2]

/-- `get_valid_bins(df, column)` of `src/map_app.py` (lines 338-374); the
`get_valid_bins` nested in `generate_folium_map` of `src/map_app_v1.py`
(lines 739-759) differs only in also writing a `color` column on success. -/
def get_valid_bins (t : Table) : Table × List (String × Frac) :=
  getValidBinsGo t bin_options


/-- A concrete two-row table with metric values 0 and 1. -/
def pairTable : Table := ⟨[some ⟨0, 1⟩, some ⟨1, 1⟩], none⟩

/-- A concrete 20-row metric column with ten distinct values (eleven rows of
0 followed by 1 … 9). -/
def skewedColumn : List (Option Frac) :=
  [some ⟨0, 1⟩, some ⟨0, 1⟩, some ⟨0, 1⟩, some ⟨0, 1⟩, some ⟨0, 1⟩, some ⟨0, 1⟩,
   some ⟨0, 1⟩, some ⟨0, 1⟩, some ⟨0, 1⟩, some ⟨0, 1⟩, some ⟨0, 1⟩,
   some ⟨1, 1⟩, some ⟨2, 1⟩, some ⟨3, 1⟩, some ⟨4, 1⟩, some ⟨5, 1⟩, some ⟨6, 1⟩,
   some ⟨7, 1⟩, some ⟨8, 1⟩, some ⟨9, 1⟩]

/-- A concrete 10-row metric column 0, 10, 20, …, 90 on which the 10-quantile
attempt succeeds. -/
def decileColumn : List (Option Frac) :=
  [some ⟨0, 1⟩, some ⟨10, 1⟩, some ⟨20, 1⟩, some ⟨30, 1⟩, some ⟨40, 1⟩,
   some ⟨50, 1⟩, some ⟨60, 1⟩, some ⟨70, 1⟩, some ⟨80, 1⟩, some ⟨90, 1⟩]

/-- The labels the dynamic binner synthesizes for `decileColumn` at quantile
count 10 (its decile edges are 0, 9, 18, …, 90). -/
def decileLabels : List String :=
  ["0-9", "9-18", "18-27", "27-36", "36-45", "45-54", "54-63", "63-72", "72-81", "81-90"]

/-- The bucket column the dynamic binner writes for `decileColumn`. -/
def decileBuckets : List (Option String) := decileLabels.map some

/-- Cross-multiplication `≤` agrees with the rational-value ordering when
both denominators are positive. -/
theorem Frac.le_iff {a b : Frac} (ha : 0 < a.den) (hb : 0 < b.den) :
    Frac.le a b ↔ a.toRat ≤ b.toRat := by
  unfold Frac.le Frac.toRat
  rw [div_le_div_iff₀ (by exact_mod_cast ha) (by exact_mod_cast hb)]
  exact_mod_cast Iff.rfl

/-- Cross-multiplication `<` agrees with the rational-value ordering when
both denominators are positive. -/
theorem Frac.lt_iff {a b : Frac} (ha : 0 < a.den) (hb : 0 < b.den) :
    Frac.lt a b ↔ a.toRat < b.toRat := by
  unfold Frac.lt Frac.toRat
  rw [div_lt_div_iff₀ (by exact_mod_cast ha) (by exact_mod_cast hb)]
  exact_mod_cast Iff.rfl

theorem Frac.le_refl (a : Frac) : Frac.le a a := Int.le_refl _

theorem Frac.le_of_lt {a b : Frac} (h : Frac.lt a b) : Frac.le a b := Int.le_of_lt h

theorem Frac.le_le_trans {a b c : Frac} (ha : 0 < a.den) (hb : 0 < b.den) (hc : 0 < c.den)
    (h1 : Frac.le a b) (h2 : Frac.le b c) : Frac.le a c :=
  (Frac.le_iff ha hc).mpr (((Frac.le_iff ha hb).mp h1).trans ((Frac.le_iff hb hc).mp h2))

theorem Frac.le_lt_trans {a b c : Frac} (ha : 0 < a.den) (hb : 0 < b.den)
    (hc : 0 < c.den) (h1 : Frac.le a b) (h2 : Frac.lt b c) : Frac.lt a c :=
  (Frac.lt_iff ha hc).mpr (lt_of_le_of_lt ((Frac.le_iff ha hb).mp h1) ((Frac.lt_iff hb hc).mp h2))

theorem Frac.lt_not_le {a b : Frac} (ha : 0 < a.den) (hb : 0 < b.den)
    (h : Frac.lt a b) : ¬ Frac.le b a :=
  fun hle => absurd ((Frac.lt_iff ha hb).mp h) (not_lt.mpr ((Frac.le_iff hb ha).mp hle))

theorem XVal.le_self : ∀ a : XVal, XVal.le a a
  | .negInf => trivial
  | .fin a => Frac.le_refl a
  | .posInf => trivial

theorem XVal.lt_imp_le {a b : XVal} (h : XVal.lt a b) : XVal.le a b := by
  cases a <;> cases b <;>
    first
      | trivial
      | exact False.elim h
      | exact Frac.le_of_lt h

theorem XVal.le_chain {a b c : XVal} (ha : XVal.posDen a) (hb : XVal.posDen b)
    (hc : XVal.posDen c) (h1 : XVal.le a b) (h2 : XVal.le b c) : XVal.le a c := by
  cases a <;> cases b <;> cases c <;>
    first
      | trivial
      | exact False.elim h1
      | exact False.elim h2
      | exact Frac.le_le_trans ha hb hc h1 h2

theorem XVal.le_lt_chain {a b c : XVal} (ha : XVal.posDen a) (hb : XVal.posDen b)
    (hc : XVal.posDen c) (h1 : XVal.le a b) (h2 : XVal.lt b c) : XVal.lt a c := by
  cases a <;> cases b <;> cases c <;>
    first
      | trivial
      | exact False.elim h1
      | exact False.elim h2
      | exact Frac.le_lt_trans ha hb hc h1 h2

theorem XVal.lt_excludes_le {a b : XVal} (ha : XVal.posDen a) (hb : XVal.posDen b)
    (h : XVal.lt a b) : ¬ XVal.le b a := by
  cases a <;> cases b <;>
    first
      | exact fun hle => False.elim hle
      | exact False.elim h
      | exact Frac.lt_not_le ha hb h

/-- A strict chain decomposes at the head. -/
theorem chainLtX_cons {a b : XVal} {rest : List XVal}
    (h : chainLtX (a :: b :: rest) = true) :
    XVal.lt a b ∧ chainLtX (b :: rest) = true := by
  by_cases hab : XVal.lt a b
  · exact ⟨hab, by simpa [chainLtX, hab] using h⟩
  · simp [chainLtX, hab] at h

/-- Every element of a strictly increasing edge list is at least its head. -/
theorem chain_get_le : ∀ (j : ℕ) (l : List XVal), chainLtX l = true →
    (∀ e ∈ l, XVal.posDen e) → ∀ (x a : XVal),
    l.get? 0 = some x → l.get? j = some a → XVal.le x a := by
  intro j
  induction j with
  | zero =>
      intro l _ _ x a h0 h1
      rw [h0] at h1
      cases h1
      exact XVal.le_self x
  | succ j ih =>
      intro l hch hpos x a h0 hj
      cases l with
      | nil => simp [List.get?] at h0
      | cons x0 tl =>
        cases h0
        cases tl with
        | nil => simp [List.get?] at hj
        | cons y rest =>
          have hch' := chainLtX_cons hch
          have hpos' : ∀ e ∈ y :: rest, XVal.posDen e :=
            fun e he => hpos e (List.mem_cons_of_mem _ he)
          have hya : XVal.le y a := ih (y :: rest) hch'.2 hpos' y a rfl hj
          have hxa : a ∈ x :: y :: rest :=
            List.mem_cons_of_mem _ (List.get?_mem hj)
          exact XVal.le_chain (hpos _ (by simp)) (hpos y (by simp))
            (hpos a hxa) (XVal.lt_imp_le hch'.1) hya

/-- If the `i`-th interval of a strictly increasing edge list contains the
value, `cutAssign` returns the `i`-th label. -/
theorem cutAssign_of_bounds : ∀ (i : ℕ) (bins : List XVal) (labels : List String)
    (v : Frac) (a b : XVal) (l : String), chainLtX bins = true →
    (∀ e ∈ bins, XVal.posDen e) → 0 < v.den →
    bins.get? i = some a → bins.get? (i + 1) = some b → labels.get? i = some l →
    XVal.lt a (XVal.fin v) → XVal.le (XVal.fin v) b →
    cutAssign bins labels v = some l := by
  intro i
  induction i with
  | zero =>
      intro bins labels v a b l _ _ _ h0 h1 hl hlt hle
      cases bins with
      | nil => simp [List.get?] at h0
      | cons b0 tl =>
        cases tl with
        | nil => simp [List.get?] at h1
        | cons b1 bs =>
          cases labels with
          | nil => simp [List.get?] at hl
          | cons l0 ls =>
            cases h0
            cases h1
            cases hl
            simp [cutAssign, hlt, hle]
  | succ j ih =>
      intro bins labels v a b l hch hpos hv h0 h1 hl hlt hle
      cases bins with
      | nil => simp [List.get?] at h0
      | cons b0 tl =>
        cases tl with
        | nil => simp [List.get?] at h0
        | cons b1 bs =>
          cases labels with
          | nil => simp [List.get?] at hl
          | cons l0 ls =>
            have hch' := chainLtX_cons hch
            have hpos' : ∀ e ∈ b1 :: bs, XVal.posDen e :=
              fun e he => hpos e (List.mem_cons_of_mem _ he)
            have hb1a : XVal.le b1 a :=
              chain_get_le j (b1 :: bs) hch'.2 hpos' b1 a rfl h0
            have hposa : XVal.posDen a :=
              hpos' a (List.get?_mem h0)
            have hlt1 : XVal.lt b1 (XVal.fin v) :=
              XVal.le_lt_chain (hpos b1 (by simp)) hposa hv hb1a hlt
            have hnle : ¬ XVal.le (XVal.fin v) b1 :=
              XVal.lt_excludes_le (hpos b1 (by simp)) hv hlt1
            show cutAssign (b0 :: b1 :: bs) (l0 :: ls) v = some l
            simp only [cutAssign]
            rw [if_neg fun hcond => hnle hcond.2]
            exact ih (b1 :: bs) ls v a b l hch'.2 hpos' hv h0 h1 hl hlt hle

/-- Conversely, whenever `cutAssign` assigns a label, some interval of the
edge list contains the value and carries that label. -/
theorem cutAssign_bounds_of_eq : ∀ (bins : List XVal) (labels : List String)
    (v : Frac) (l : String), cutAssign bins labels v = some l →
    ∃ i a b, bins.get? i = some a ∧ bins.get? (i + 1) = some b ∧
      labels.get? i = some l ∧ XVal.lt a (XVal.fin v) ∧ XVal.le (XVal.fin v) b := by
  intro bins
  induction bins with
  | nil => intro labels v l h; simp [cutAssign] at h
  | cons b0 tl ih =>
    intro labels v l h
    cases tl with
    | nil => simp [cutAssign] at h
    | cons b1 bs =>
      cases labels with
      | nil => simp [cutAssign] at h
      | cons l0 ls =>
        by_cases hcond : XVal.lt b0 (XVal.fin v) ∧ XVal.le (XVal.fin v) b1
        · have : some l0 = some l := by simpa [cutAssign, hcond] using h
          cases this
          exact ⟨0, b0, b1, rfl, rfl, rfl, hcond.1, hcond.2⟩
        · have h' : cutAssign (b1 :: bs) ls v = some l := by
            simpa [cutAssign, hcond] using h
          obtain ⟨i, a, b, hi, hi1, hil, hlt, hle⟩ := ih ls v l h'
          exact ⟨i + 1, a, b, hi, hi1, hil, hlt, hle⟩

/-- Failed attempts are skipped by the attempt loop. -/
theorem getValidBinsGo_append (t : Table) : ∀ (pre rest : List ℕ),
    (∀ q ∈ pre, qcutAttempt t.values q = none) →
    getValidBinsGo t (pre ++ rest) = getValidBinsGo t rest := by
  intro pre
  induction pre with
  | nil => intro rest _; rfl
  | cons q qs ih =>
      intro rest hfail
      have hq : qcutAttempt t.values q = none := hfail q (by simp)
      show getValidBinsGo t (q :: (qs ++ rest)) = _
      simp only [getValidBinsGo, hq]
      exact ih rest fun q' hq' => hfail q' (List.mem_cons_of_mem _ hq')

/-- When every attempt fails, the loop returns the dataframe unmodified and
an empty colour map. -/
theorem getValidBinsGo_all_none (t : Table) : ∀ (opts : List ℕ),
    (∀ q ∈ opts, qcutAttempt t.values q = none) →
    getValidBinsGo t opts = (t, []) := by
  intro opts
  induction opts with
  | nil => intro _; rfl
  | cons q qs ih =>
      intro hfail
      show getValidBinsGo t (q :: qs) = _
      simp only [getValidBinsGo, hfail q (by simp)]
      exact ih fun q' hq' => hfail q' (List.mem_cons_of_mem _ hq')

/-- The attempt loop either leaves the dataframe untouched (every attempt
failed) or writes the bucket column of the first successful attempt. -/
theorem getValidBinsGo_cases (t : Table) : ∀ (opts : List ℕ),
    getValidBinsGo t opts = (t, []) ∨
    ∃ q bkts labels, q ∈ opts ∧ qcutAttempt t.values q = some (bkts, labels) ∧
      getValidBinsGo t opts =
        ({ values := t.values, buckets := some bkts }, mkColorMap labels) := by
  intro opts
  induction opts with
  | nil => exact Or.inl rfl
  | cons q qs ih =>
      cases hq : qcutAttempt t.values q with
      | some r =>
          refine Or.inr ⟨q, r.1, r.2, by simp, by rw [hq], ?_⟩
          show getValidBinsGo t (q :: qs) = _
          simp only [getValidBinsGo, hq]
      | none =>
          have hstep : getValidBinsGo t (q :: qs) = getValidBinsGo t qs := by
            simp only [getValidBinsGo, hq]
          cases ih with
          | inl h => exact Or.inl (hstep.trans h)
          | inr h =>
              obtain ⟨q', bkts, labels, hmem, hatt, heq⟩ := h
              exact Or.inr ⟨q', bkts, labels, List.mem_cons_of_mem _ hmem, hatt,
                hstep.trans heq⟩

/-- What a successful quantile attempt must look like. -/
theorem qcutAttempt_eq_some {col : List (Option Frac)} {q : ℕ}
    {bkts : List (Option String)} {labels : List String}
    (h : qcutAttempt col q = some (bkts, labels)) :
    labels = qLabels (qEdges col q) ∧ distinctF (qEdges col q) = true ∧
      labels.Nodup ∧
      bkts = col.map (fun v => v.bind (qcutAssign (qEdges col q) labels)) ∧
      col.filterMap id ≠ [] := by
  simp only [qcutAttempt] at h
  by_cases h0 : col.filterMap id = []
  · rw [if_pos h0] at h; cases h
  · rw [if_neg h0] at h
    by_cases h1 : distinctF (qEdges col q) = true
    · rw [if_pos h1] at h
      by_cases h2 : (qLabels (qEdges col q)).Nodup
      · rw [if_pos h2] at h
        injection h with h'
        injection h' with hb hl
        refine ⟨hl.symm, h1, hl ▸ h2, ?_, h0⟩
        rw [← hl]
        exact hb.symm
      · rw [if_neg h2] at h; cases h
    · rw [if_neg h1] at h; cases h

/-- The number of quantile edges is one more than the quantile count. -/
theorem qEdges_length (col : List (Option Frac)) (q : ℕ) :
    (qEdges col q).length = q + 1 := by
  simp only [qEdges, List.length_map, List.length_range]

/-- One label per bucket: the synthesized label list has one entry fewer
than the edge list. -/
theorem qLabels_length (edges : List Frac) :
    (qLabels edges).length = min edges.length (edges.length - 1) := by
  simp [qLabels, List.length_zip, List.length_tail]

/-- One colour per label. -/
theorem mkColorMap_length (labels : List String) :
    (mkColorMap labels).length = labels.length := by
  simp [mkColorMap, List.enum_length]

/-- The colour positions of the dynamic colour map, in bucket order. -/
theorem mkColorMap_snd (labels : List String) :
    (mkColorMap labels).map Prod.snd =
      (List.range labels.length).map (paletteSample labels.length) := by
  show (labels.enum.map _).map _ = _
  rw [List.map_map, show (Prod.snd ∘ fun p : ℕ × String =>
    (p.2, paletteSample labels.length p.1)) = paletteSample labels.length ∘ Prod.fst from rfl]
  rw [← List.map_map, List.enum_map_fst]

/-- Palette positions strictly increase with the bucket index: later buckets
are strictly greener. -/
theorem paletteSample_strictMono (n : ℕ) :
    List.Pairwise Frac.lt ((List.range n).map (paletteSample n)) := by
  refine List.Pairwise.map _ (fun a b hab => ?_) (List.pairwise_lt_range n)
  show ((a : ℤ) + 1) * ((n : ℤ) + 1) < ((b : ℤ) + 1) * ((n : ℤ) + 1)
  have h1 : (a : ℤ) + 1 < (b : ℤ) + 1 := by exact_mod_cast Nat.succ_lt_succ hab
  have h2 : (0 : ℤ) < (n : ℤ) + 1 := by positivity
  exact mul_lt_mul_of_pos_right h1 h2

theorem Frac.beq_refl (c : Frac) : Frac.beq c c = true := by
  simp [Frac.beq]

/-- Value equality is transitive through a shared comparand with a nonzero
denominator. -/
theorem Frac.beq_shared {a b c : Frac} (hc : c.den ≠ 0)
    (h1 : Frac.beq a c = true) (h2 : Frac.beq b c = true) : Frac.beq a b = true := by
  rw [Frac.beq, beq_iff_eq] at h1 h2 ⊢
  apply mul_right_cancel₀ hc
  linear_combination b.den * h1 - a.den * h2

/-- Linear interpolation between a value and itself returns that value. -/
theorem Frac.beq_interp_self (g c : Frac) :
    Frac.beq (c.add (g.mul (c.sub c))) c = true := by
  rw [Frac.beq, beq_iff_eq, Frac.add, Frac.mul, Frac.sub]
  ring

theorem filterMap_id_replicate (n : ℕ) (c : Frac) :
    (List.replicate n (some c)).filterMap id = List.replicate n c := by
  induction n with
  | zero => rfl
  | succ n ih => simp [List.replicate_succ, List.filterMap_cons, ih]

theorem insertF_replicate (c : Frac) : ∀ n : ℕ,
    insertF c (List.replicate n c) = List.replicate (n + 1) c := by
  intro n
  cases n with
  | zero => rfl
  | succ n =>
      rw [List.replicate_succ]
      show insertF c (c :: List.replicate n c) = _
      simp [insertF, Frac.le_refl, List.replicate_succ]

theorem sortF_replicate (n : ℕ) (c : Frac) :
    sortF (List.replicate n c) = List.replicate n c := by
  induction n with
  | zero => rfl
  | succ n ih =>
      rw [List.replicate_succ]
      show insertF c (sortF (List.replicate n c)) = _
      rw [ih, insertF_replicate, List.replicate_succ]

/-- Every quantile of a constant value list equals that constant value. -/
theorem quantile_replicate (n : ℕ) (c p : Frac) (hn : 0 < n) (hd : 0 < p.den)
    (h0 : 0 ≤ p.num) (h1 : p.num ≤ p.den) :
    Frac.beq (quantile (List.replicate n c) p) c = true := by
  have hden : (0 : ℤ) < p.den * 1 := by omega
  have hnn : (0 : ℤ) ≤ p.num * ((n : ℤ) - 1) := by
    have : (0 : ℤ) ≤ (n : ℤ) - 1 := by omega
    positivity
  have hF0 : 0 ≤ (Frac.mul p (Frac.ofInt ((n : ℤ) - 1))).floor :=
    Int.fdiv_nonneg hnn (le_of_lt hden)
  have hFlt : (Frac.mul p (Frac.ofInt ((n : ℤ) - 1))).floor < (n : ℤ) := by
    show Int.fdiv (p.num * ((n : ℤ) - 1)) (p.den * 1) < (n : ℤ)
    rw [Int.fdiv_eq_ediv _ (le_of_lt hden)]
    rw [Int.ediv_lt_iff_lt_mul hden]
    have hstep : p.num * ((n : ℤ) - 1) ≤ p.den * ((n : ℤ) - 1) :=
      mul_le_mul_of_nonneg_right h1 (by omega)
    have hstep2 : p.den * ((n : ℤ) - 1) < p.den * (n : ℤ) := by
      have := mul_lt_mul_of_pos_left (show (n : ℤ) - 1 < (n : ℤ) by omega) hd
      exact this
    nlinarith
  have hi : (Frac.mul p (Frac.ofInt ((n : ℤ) - 1))).floor.toNat < n := by omega
  have hget : (List.replicate n c).get?
      ((Frac.mul p (Frac.ofInt ((n : ℤ) - 1))).floor.toNat) = some c := by
    simp [List.getElem?_replicate, hi]
  show Frac.beq (quantile (List.replicate n c) p) c = true
  simp only [quantile, List.length_replicate]
  rw [hget]
  cases hget1 : (List.replicate n c).get?
      ((Frac.mul p (Frac.ofInt ((n : ℤ) - 1))).floor.toNat + 1) with
  | none => exact Frac.beq_refl c
  | some x =>
      have hx : x = c := List.eq_of_mem_replicate (List.get?_mem hget1)
      rw [hx]
      exact Frac.beq_interp_self _ c

/-- A list whose first two entries are value-equal is not pairwise
distinct. -/
theorem distinctF_false_of_first_two : ∀ (l : List Frac) (x y : Frac),
    l.get? 0 = some x → l.get? 1 = some y → Frac.beq x y = true →
    distinctF l = false := by
  intro l x y h0 h1 hxy
  cases l with
  | nil => cases h0
  | cons a tl =>
      cases tl with
      | nil => cases h1
      | cons b rest =>
          cases h0
          cases h1
          simp [distinctF, List.all_cons, hxy]

theorem get?_map_range {α : Type} (f : ℕ → α) (m i : ℕ) (h : i < m) :
    ((List.range m).map f).get? i = some (f i) := by
  simp [List.getElem?_map, List.getElem?_range, h]

/-- On a constant column the quantile bin edges are all value-equal, so the
`duplicates="raise"` check fails. -/
theorem qEdges_replicate_not_distinct (n : ℕ) (c : Frac) (q : ℕ)
    (hn : 0 < n) (hq : 2 ≤ q) (hc : c.den ≠ 0) :
    distinctF (qEdges (List.replicate n (some c)) q) = false := by
  have hxs : sortF ((List.replicate n (some c)).filterMap id) = List.replicate n c := by
    rw [filterMap_id_replicate, sortF_replicate]
  have hb0 : Frac.beq (quantile (List.replicate n c) ⟨(0 : ℤ), (q : ℤ)⟩) c = true :=
    quantile_replicate n c ⟨0, q⟩ hn (by show (0:ℤ) < (q:ℤ); omega)
      (by show (0:ℤ) ≤ (0:ℤ); omega) (by show (0:ℤ) ≤ (q:ℤ); omega)
  have hb1 : Frac.beq (quantile (List.replicate n c) ⟨(1 : ℤ), (q : ℤ)⟩) c = true :=
    quantile_replicate n c ⟨1, q⟩ hn (by show (0:ℤ) < (q:ℤ); omega)
      (by show (0:ℤ) ≤ (1:ℤ); omega) (by show (1:ℤ) ≤ (q:ℤ); omega)
  have hbeq := Frac.beq_shared hc hb0 hb1
  simp only [qEdges]
  rw [hxs]
  exact distinctF_false_of_first_two _ _ _
    (get?_map_range _ (q + 1) 0 (by omega)) (get?_map_range _ (q + 1) 1 (by omega)) hbeq

/-- On a constant column every quantile attempt is rejected. -/
theorem qcutAttempt_replicate_none (n : ℕ) (c : Frac) (q : ℕ) (hn : 0 < n)
    (hq : 2 ≤ q) (hc : c.den ≠ 0) :
    qcutAttempt (List.replicate n (some c)) q = none := by
  have hne : (List.replicate n (some c)).filterMap id ≠ [] := by
    rw [filterMap_id_replicate]
    intro h
    have := congrArg List.length h
    simp [List.length_replicate] at this
    omega
  have hdist := qEdges_replicate_not_distinct n c q hn hq hc
  simp only [qcutAttempt]
  rw [if_neg hne, hdist]
  simp

/-- Claim C2 (counterexample): the specification's edge convention
`cut[i] <= v < cut[i+1]` is wrong.  For the sorted map_app_v1.py
district-level TRANSACTING_SMAs cut points, the value 50 satisfies
`cut[1] <= 50 < cut[2]` (so the claim predicts label "50-100"), but the
code assigns the bucket "0-50": `pd.cut` intervals are left-open,
right-closed. -/
theorem C2_counterexample :
    (sortX [xf 0, xf 50, xf 100, xf 250, xf 500, xf 1000, XVal.posInf]).get? 1 =
      some (xf 50) ∧
    (sortX [xf 0, xf 50, xf 100, xf 250, xf 500, xf 1000, XVal.posInf]).get? 2 =
      some (xf 100) ∧
    XVal.le (xf 50) (XVal.fin ⟨50, 1⟩) ∧ XVal.lt (XVal.fin ⟨50, 1⟩) (xf 100) ∧
    cutAssign (sortX [xf 0, xf 50, xf 100, xf 250, xf 500, xf 1000, XVal.posInf])
      ["0-50", "50-100", "100-250", "250-500", "500-1000", ">1000"] ⟨50, 1⟩ =
      some "0-50" ∧
    ("0-50" : String) ≠ "50-100" := by decide

/-- Claim C2 (amended): for every scheme whose sorted cut points are
strictly increasing, a non-null value `v` is assigned label `i` exactly
when `cut[i] < v <= cut[i+1]` (left-open, right-closed — not the claimed
left-closed, right-open), and a null row receives no bucket. -/
theorem C2_amended (bins : List XVal) (labels : List String) (v : Frac)
    (hchain : chainLtX bins = true) (hpos : ∀ e ∈ bins, XVal.posDen e)
    (hv : 0 < v.den) :
    (∀ i a b l, bins.get? i = some a → bins.get? (i + 1) = some b →
      labels.get? i = some l → XVal.lt a (XVal.fin v) → XVal.le (XVal.fin v) b →
      cutAssign bins labels v = some l) ∧
    (∀ l, cutAssign bins labels v = some l →
      ∃ i a b, bins.get? i = some a ∧ bins.get? (i + 1) = some b ∧
        labels.get? i = some l ∧ XVal.lt a (XVal.fin v) ∧ XVal.le (XVal.fin v) b) ∧
    pdCutRow bins labels none = none :=
  ⟨fun i a b l h0 h1 hl hlt hle =>
      cutAssign_of_bounds i bins labels v a b l hchain hpos hv h0 h1 hl hlt hle,
   fun l h => cutAssign_bounds_of_eq bins labels v l h,
   rfl⟩

/-- Claim C2 (witness): the amended characterisation applied to the sorted
map_app_v1.py TRANSACTING_SMAs cut points at value 75 and interval 1. -/
theorem C2_witness :
    cutAssign (sortX [xf 0, xf 50, xf 100, xf 250, xf 500, xf 1000, XVal.posInf])
      ["0-50", "50-100", "100-250", "250-500", "500-1000", ">1000"] ⟨75, 1⟩ =
      some "50-100" :=
  (C2_amended (sortX [xf 0, xf 50, xf 100, xf 250, xf 500, xf 1000, XVal.posInf])
      ["0-50", "50-100", "100-250", "250-500", "500-1000", ">1000"] ⟨75, 1⟩
      (by decide) (by decide) (by decide)).1
    1 (xf 50) (xf 100) "50-100" (by decide) (by decide) (by decide) (by decide) (by decide)

/-- Claim C4: when every value in the dataset is the same constant, every
quantile attempt of the dynamic binner fails, it returns the dataframe
unchanged (no `Buckets` column, so every row is unclassified) together with
an empty colour map, and no exception escapes (the model is total; the
source catches each `ValueError` and merely prints a notice). -/
theorem C4_theorem (n : ℕ) (c : Frac) (hn : 0 < n) (hc : 0 < c.den) :
    get_valid_bins ⟨List.replicate n (some c), none⟩ =
      (⟨List.replicate n (some c), none⟩, []) := by
  apply getValidBinsGo_all_none
  intro q hq
  have h2 : 2 ≤ q := by
    simp [bin_options, List.mem_cons] at hq
    rcases hq with rfl | rfl | rfl | rfl | rfl <;> norm_num
  exact qcutAttempt_replicate_none n c q hn h2 (ne_of_gt hc)

/-- Claim C4 (witness): twenty rows all equal to 5. -/
theorem C4_witness :
    get_valid_bins ⟨List.replicate 20 (some ⟨5, 1⟩), none⟩ =
      (⟨List.replicate 20 (some ⟨5, 1⟩), none⟩, []) :=
  C4_theorem 20 ⟨5, 1⟩ (by decide) (by decide)

/-- Claim C7 (counterexample): classifying with a scheme whose cut-point
sequence contains a duplicated edge does raise: `duplicates="drop"` removes
the repeated edge, after which the explicit three-element label list no
longer matches the three remaining edges and `pd.cut` raises `ValueError`
instead of degrading to fewer buckets. -/
theorem C7_counterexample :
    pdCut [xf 0, xf 50, xf 50, xf 100] ["0-50", "50-50", "50-100"] [some ⟨10, 1⟩] =
      Except.error "Bin labels must be one fewer than the number of bin edges" := by
  decide

/-- Claim C7 (amended): the call requests duplicate dropping, but because
the label list is passed explicitly, a scheme that actually contains
duplicate adjacent edges raises `ValueError` (label-count mismatch after
the drop); classification never raises precisely for schemes free of
duplicate adjacent cut points with one label fewer than edges — as all
shipped schemes of map_app.py are — and then every input row yields exactly
one output row. -/
theorem C7_amended (bins : List XVal) (labels : List String) (col : List (Option Frac))
    (hnodup : dedupAdj bins = bins) (hlen : labels.length + 1 = bins.length) :
    pdCut bins labels col = Except.ok (col.map (pdCutRow bins labels)) ∧
    (col.map (pdCutRow bins labels)).length = col.length := by
  constructor
  · simp only [pdCut, hnodup]
    rw [if_neg (by omega)]
  · exact List.length_map col _

/-- Claim C7 (witness): a duplicate-free scheme classifies a two-row column
without an error and preserves the row count. -/
theorem C7_witness :
    pdCut [xf 0, xf 50, xf 100] ["0-50", "50-100"] [some ⟨75, 1⟩, none] =
      Except.ok ([some ⟨75, 1⟩, none].map (pdCutRow [xf 0, xf 50, xf 100]
        ["0-50", "50-100"])) ∧
    ([some ⟨75, 1⟩, none].map (pdCutRow [xf 0, xf 50, xf 100] ["0-50", "50-100"])).length =
      [some ⟨75, 1⟩, (none : Option Frac)].length :=
  C7_amended [xf 0, xf 50, xf 100] ["0-50", "50-100"] [some ⟨75, 1⟩, none]
    (by decide) (by decide)

/-- Claim C1 (counterexample): the claim fails on both variants — the
district-level TRANSACTING_SMAs scheme of map_app.py does not have the
stated cut points `[0,50,100,250,500,1000,inf]` (it has
`[0,100,500,800,1200,2000,inf]`), and in map_app_v1.py, whose scheme does
have them, the row with value 0 receives no bucket rather than "0-50". -/
theorem C1_counterexample :
    (List.lookup "TRANSACTING_SMAs" MapApp.predefined_metric_bins_district_level ≠
      some ([xf 0, xf 50, xf 100, xf 250, xf 500, xf 1000, XVal.posInf],
            ["0-50", "50-100", "100-250", "250-500", "500-1000", ">1000"])) ∧
    (Option.map (fun s : Scheme => pdCut (sortX s.1) s.2 [some ⟨0, 1⟩])
        (List.lookup "TRANSACTING_SMAs" MapAppV1.predefined_metric_bins_district_level) ≠
      some (Except.ok [some "0-50"])) := by decide

/-- Claim C1 (amended): map_app_v1.py's district-level TRANSACTING_SMAs
scheme has the stated cut points and labels, and under it value 75
classifies to "50-100" and value 5000 to ">1000", while value 0 receives no
bucket (`pd.cut` intervals are left-open); map_app.py carries the same
labels on cut points `[0,100,500,800,1200,2000,inf]`, under which value 75
classifies to "0-50". -/
theorem C1_amended :
    List.lookup "TRANSACTING_SMAs" MapAppV1.predefined_metric_bins_district_level =
      some ([xf 0, xf 50, xf 100, xf 250, xf 500, xf 1000, XVal.posInf],
            ["0-50", "50-100", "100-250", "250-500", "500-1000", ">1000"]) ∧
    Option.map (fun s : Scheme =>
        pdCut (sortX s.1) s.2 [some ⟨75, 1⟩, some ⟨0, 1⟩, some ⟨5000, 1⟩])
        (List.lookup "TRANSACTING_SMAs" MapAppV1.predefined_metric_bins_district_level) =
      some (Except.ok [some "50-100", none, some ">1000"]) ∧
    List.lookup "TRANSACTING_SMAs" MapApp.predefined_metric_bins_district_level =
      some ([xf 0, xf 100, xf 500, xf 800, xf 1200, xf 2000, XVal.posInf],
            ["0-50", "50-100", "100-250", "250-500", "500-1000", ">1000"]) ∧
    Option.map (fun s : Scheme => pdCut (sortX s.1) s.2 [some ⟨75, 1⟩])
        (List.lookup "TRANSACTING_SMAs" MapApp.predefined_metric_bins_district_level) =
      some (Except.ok [some "0-50"]) := by decide

/-- Claim C3 (counterexample): distinct bin edges are not sufficient for an
attempt to succeed.  On the column with values 0 and 1 the eleven
10-quantile edges are pairwise distinct, yet the 10-quantile attempt fails
(the synthesized truncated-integer labels collide, e.g. "0-0" repeats, and
the second `qcut` call requires unique labels); the binner falls through to
quantile count 2, producing two buckets. -/
theorem C3_counterexample :
    distinctF (qEdges pairTable.values 10) = true ∧
    qcutAttempt pairTable.values 10 = none ∧
    (get_valid_bins pairTable).2 = mkColorMap ["0-0", "0-1"] := by decide

/-- Claim C3 (amended): the binner attempts quantile counts 10, 5, 4, 3, 2
in that order and returns the first attempt whose bin edges are pairwise
distinct AND whose synthesized labels — "{lower}-{upper}" from the
truncated-toward-zero integer edges — are pairwise distinct; the colour map
pairs each bucket, in order, with one palette sample whose position is
strictly increasing (lowest bucket reddest, highest greenest). -/
theorem C3_amended (t : Table) (pre post : List ℕ) (q : ℕ)
    (bkts : List (Option String)) (labels : List String)
    (hsplit : bin_options = pre ++ q :: post)
    (hpre : ∀ q' ∈ pre, qcutAttempt t.values q' = none)
    (hq : qcutAttempt t.values q = some (bkts, labels)) :
    get_valid_bins t = ({ values := t.values, buckets := some bkts }, mkColorMap labels) ∧
    labels = qLabels (qEdges t.values q) ∧
    labels.Nodup ∧ distinctF (qEdges t.values q) = true ∧
    (mkColorMap labels).length = labels.length ∧
    List.Pairwise Frac.lt ((mkColorMap labels).map Prod.snd) := by
  obtain ⟨hl, hdist, hnd, hb, hne⟩ := qcutAttempt_eq_some hq
  refine ⟨?_, hl, hnd, hdist, mkColorMap_length labels, ?_⟩
  · rw [get_valid_bins, hsplit, getValidBinsGo_append t pre (q :: post) hpre]
    show getValidBinsGo t (q :: post) = _
    simp only [getValidBinsGo, hq]
  · rw [mkColorMap_snd]
    exact paletteSample_strictMono labels.length

/-- Claim C3 (witness): on the column 0, 10, …, 90 the very first attempt
(quantile count 10) succeeds with decile edges 0, 9, 18, …, 90. -/
theorem C3_witness :
    get_valid_bins ⟨decileColumn, none⟩ =
      ({ values := decileColumn, buckets := some decileBuckets }, mkColorMap decileLabels) ∧
    decileLabels = qLabels (qEdges decileColumn 10) ∧
    decileLabels.Nodup ∧ distinctF (qEdges decileColumn 10) = true ∧
    (mkColorMap decileLabels).length = decileLabels.length ∧
    List.Pairwise Frac.lt ((mkColorMap decileLabels).map Prod.snd) :=
  C3_amended ⟨decileColumn, none⟩ [] [5, 4, 3, 2] 10 decileBuckets decileLabels rfl
    (by simp) (by decide)

/-- Claim C5 (counterexample): for state scope with the state-level
boundary, `generate_folium_map` of map_app.py first resets the geography to
National, so the returned file name is
`MAP_National_state_level_TRANSACTING_SMAs_2025-03-01.html`, not the
claimed `MAP_State_BIHAR_...` form. -/
theorem C5_counterexample :
    MapApp.file_name "State" "state_level" "TRANSACTING_SMAs" "2025-03-01" "BIHAR" =
      "MAP_National_state_level_TRANSACTING_SMAs_2025-03-01.html" ∧
    MapApp.file_name "State" "state_level" "TRANSACTING_SMAs" "2025-03-01" "BIHAR" ≠
      "MAP_State_BIHAR_state_level_TRANSACTING_SMAs_2025-03-01.html" := by decide

/-- Claim C5 (amended): the name is deterministic and follows the template,
but in map_app.py a State scope combined with the state_level boundary is
reset to National, so the stated input yields the National-form name; the
State-form name appears for the district_level boundary, and map_app_v1.py
(which has no reset) returns exactly the claimed name for the stated
input. -/
theorem C5_amended :
    MapApp.file_name "State" "state_level" "TRANSACTING_SMAs" "2025-03-01" "BIHAR" =
      "MAP_National_state_level_TRANSACTING_SMAs_2025-03-01.html" ∧
    MapApp.file_name "State" "district_level" "TRANSACTING_SMAs" "2025-03-01" "BIHAR" =
      "MAP_State_BIHAR_district_level_TRANSACTING_SMAs_2025-03-01.html" ∧
    MapApp.file_name "National" "state_level" "TRANSACTING_SMAs" "2025-03-01" "N/A" =
      "MAP_National_state_level_TRANSACTING_SMAs_2025-03-01.html" ∧
    MapAppV1.file_name "State" "state_level" "TRANSACTING_SMAs" "2025-03-01" "BIHAR" =
      "MAP_State_BIHAR_state_level_TRANSACTING_SMAs_2025-03-01.html" := by decide

/-- Claim C6 (counterexample): at least 10 distinct values in at least 10
rows is not sufficient.  The 20-row column with eleven zeros and 1 … 9 has
exactly 10 distinct values, yet the 10-quantile attempt fails (its lowest
decile edges coincide at 0), and on this column every coarser attempt fails
too, so the binner returns an empty colour map instead of 10 labels and 10
colours. -/
theorem C6_counterexample :
    skewedColumn.length = 20 ∧
    ((skewedColumn.filterMap id).dedup).length = 10 ∧
    qcutAttempt skewedColumn 10 = none ∧
    (get_valid_bins ⟨skewedColumn, none⟩).2 = [] := by decide

/-- Claim C6 (amended): whenever the 10-quantile attempt succeeds on a
dataset (its eleven decile edges pairwise distinct and its synthesized
labels pairwise distinct), dynamic binning succeeds at quantile count 10 —
the first attempt — and produces exactly 10 labels and 10 colours. -/
theorem C6_amended (t : Table) (bkts : List (Option String)) (labels : List String)
    (hq : qcutAttempt t.values 10 = some (bkts, labels)) :
    get_valid_bins t = ({ values := t.values, buckets := some bkts }, mkColorMap labels) ∧
    labels.length = 10 ∧ (mkColorMap labels).length = 10 := by
  obtain ⟨hl, hdist, hnd, hb, hne⟩ := qcutAttempt_eq_some hq
  have hlen : labels.length = 10 := by
    rw [hl, qLabels_length, qEdges_length]
    omega
  refine ⟨?_, hlen, by rw [mkColorMap_length, hlen]⟩
  show getValidBinsGo t (10 :: [5, 4, 3, 2]) = _
  simp only [getValidBinsGo, hq]

/-- Claim C6 (witness): the 10-row column 0, 10, …, 90 succeeds at quantile
count 10 with 10 labels and 10 colours. -/
theorem C6_witness :
    get_valid_bins ⟨decileColumn, none⟩ =
      ({ values := decileColumn, buckets := some decileBuckets }, mkColorMap decileLabels) ∧
    decileLabels.length = 10 ∧ (mkColorMap decileLabels).length = 10 :=
  C6_amended ⟨decileColumn, none⟩ decileBuckets decileLabels (by decide)

/-- Claim C8: evaluation of the scheme-table invariant
`len(cut_points) = len(labels) + 1` with strictly increasing de-duplicated
cut points.  It holds for every entry of both map_app.py tables but fails
in both map_app_v1.py tables: the CHANGE_IN_AEPS_MARKET_SHARE entries list
10 cut points (the edge 4 is missing) against 10 labels, and the
BL_DL_COUNT and ACTIVE_PARTNERS entries list 6 cut points (the leading
-inf is missing) against 6 labels. -/
theorem C8_evaluation :
    (∀ e ∈ MapApp.predefined_metric_bins_district_level, schemeOk e.2) ∧
    (∀ e ∈ MapApp.predefined_metric_bins_state_level, schemeOk e.2) ∧
    (∃ e ∈ MapAppV1.predefined_metric_bins_district_level, ¬ schemeOk e.2) ∧
    (∃ e ∈ MapAppV1.predefined_metric_bins_state_level, ¬ schemeOk e.2) ∧
    Option.map (fun s : Scheme => (s.1.length, s.2.length))
        (List.lookup "CHANGE_IN_AEPS_MARKET_SHARE"
          MapAppV1.predefined_metric_bins_district_level) = some (10, 10) ∧
    Option.map (fun s : Scheme => (s.1.length, s.2.length))
        (List.lookup "BL_DL_COUNT"
          MapAppV1.predefined_metric_bins_district_level) = some (6, 6) := by decide

/-- Claim C9 (counterexample): the dynamic binner is not side-effect-free
with respect to its input: on the two-row table with values 0 and 1 the
returned dataframe differs from the caller's input — `get_valid_bins`
assigned the `Buckets` column in place. -/
theorem C9_counterexample : (get_valid_bins pairTable).1 ≠ pairTable := by decide

/-- Claim C9 (amended): `get_valid_bins` never alters the metric column,
but it is not free of effects on its input: either every attempt fails and
the caller's dataframe is returned unmodified with an empty colour map, or
the first successful attempt writes the `Buckets` column into the caller's
dataframe in place (map_app_v1.py additionally writes a `color` column). -/
theorem C9_amended (t : Table) :
    (get_valid_bins t).1.values = t.values ∧
    (get_valid_bins t = (t, []) ∨
      ∃ q bkts labels, q ∈ bin_options ∧ qcutAttempt t.values q = some (bkts, labels) ∧
        get_valid_bins t =
          ({ values := t.values, buckets := some bkts }, mkColorMap labels)) := by
  have h := getValidBinsGo_cases t bin_options
  constructor
  · cases h with
    | inl h => rw [show get_valid_bins t = (t, []) from h]
    | inr h =>
        obtain ⟨q, bkts, labels, _, _, heq⟩ := h
        rw [show get_valid_bins t =
          ({ values := t.values, buckets := some bkts }, mkColorMap labels) from heq]
  · exact h

/-- Claim C10 (counterexample): the two variants classify differently: the
district-level TRANSACTING_SMAs schemes disagree, and the value 75 receives
bucket "0-50" from map_app.py but "50-100" from map_app_v1.py. -/
theorem C10_counterexample :
    Option.map (fun s : Scheme => pdCut (sortX s.1) s.2 [some ⟨75, 1⟩])
        (List.lookup "TRANSACTING_SMAs" MapApp.predefined_metric_bins_district_level) =
      some (Except.ok [some "0-50"]) ∧
    Option.map (fun s : Scheme => pdCut (sortX s.1) s.2 [some ⟨75, 1⟩])
        (List.lookup "TRANSACTING_SMAs" MapAppV1.predefined_metric_bins_district_level) =
      some (Except.ok [some "50-100"]) ∧
    ("0-50" : String) ≠ "50-100" := by decide

/-- Claim C10 (amended): the two variants do not implement the same
classification — their district-level TRANSACTING_SMAs schemes differ —
although several schemes coincide exactly (and hence classify identically),
e.g. SM_AEPS_MARKET_SHARE at district level and TRANSACTING_SMAs at state
level. -/
theorem C10_amended :
    List.lookup "TRANSACTING_SMAs" MapApp.predefined_metric_bins_district_level ≠
      List.lookup "TRANSACTING_SMAs" MapAppV1.predefined_metric_bins_district_level ∧
    List.lookup "SM_AEPS_MARKET_SHARE" MapApp.predefined_metric_bins_district_level =
      List.lookup "SM_AEPS_MARKET_SHARE" MapAppV1.predefined_metric_bins_district_level ∧
    List.lookup "TRANSACTING_SMAs" MapApp.predefined_metric_bins_state_level =
      List.lookup "TRANSACTING_SMAs" MapAppV1.predefined_metric_bins_state_level := by
  decide
